import Mathlib

/-!
Shallow embedding of goupdate/dbacker (src/main.go), a PostgreSQL table-backup
tool with two phases: a retention sweep (deleteOldBackups) that drops backup
tables whose trailing 8-character date suffix compares below a threshold
string, and a snapshot pass (performBackup tail) that creates dated copies of
all non-backup tables.

Modelling notes.
The database is modelled as an oracle: a catalog (list of table names in the
public schema), an optional error for each of the two catalog enumeration
queries, and an optional error for each DDL statement execution.  The two
calls to time.Now() in one run are modelled by a single Date parameter.
Go AddDate(0, 0, k) with a pure day offset equals stepping k days on the
proleptic Gregorian calendar, modelled by iterating nextDay / prevDay.
Go string comparison is bytewise lexicographic; for UTF-8 encoded strings
bytewise order coincides with codepoint order, modelled by strLtB on the
character list.  Go len and slicing count bytes; the model counts characters,
which agrees on ASCII table names.  SQL LIKE with pattern pfx || a percent
wildcard is modelled as a starts-with test on table names (faithful when the
configured pfx contains no SQL wildcard metacharacters).
-/

namespace DBacker

/-- Calendar date, proleptic Gregorian. -/
structure Date where
  year : Nat
  month : Nat
  day : Nat
deriving DecidableEq

/-- Gregorian leap-year test. -/
def isLeap (y : Nat) : Bool :=
  y % 4 == 0 && (y % 100 != 0 || y % 400 == 0)

/-- Number of days in a month of a given year. -/
def daysInMonth (y m : Nat) : Nat :=
  if m == 2 then (if isLeap y then 29 else 28)
  else if m == 4 || m == 6 || m == 9 || m == 11 then 30
  else 31

/-- Step one day forward on the calendar. -/
def nextDay (d : Date) : Date :=
  if d.day < daysInMonth d.year d.month then ⟨d.year, d.month, d.day + 1⟩
  else if d.month < 12 then ⟨d.year, d.month + 1, 1⟩
  else ⟨d.year + 1, 1, 1⟩

/-- Step one day backward on the calendar. -/
def prevDay (d : Date) : Date :=
  if 1 < d.day then ⟨d.year, d.month, d.day - 1⟩
  else if 1 < d.month then ⟨d.year, d.month - 1, daysInMonth d.year (d.month - 1)⟩
  else ⟨d.year - 1, 12, 31⟩

/-- Model of Go time.AddDate(0, 0, n): shift a date by n days. -/
def addDays (d : Date) (n : Int) : Date :=
  if 0 ≤ n then nextDay^[n.toNat] d else prevDay^[(-n).toNat] d

/-- Two-digit zero-padded decimal rendering, as Go Format uses for month and day. -/
def pad2 (n : Nat) : List Char :=
  [Nat.digitChar (n / 10 % 10), Nat.digitChar (n % 10)]

/-- Four-digit zero-padded decimal rendering, as Go Format uses for the year
(faithful for years up to 9999). -/
def pad4 (n : Nat) : List Char :=
  [Nat.digitChar (n / 1000 % 10), Nat.digitChar (n / 100 % 10),
   Nat.digitChar (n / 10 % 10), Nat.digitChar (n % 10)]

/-- Model of Go Format with layout 20060102: the YYYYMMDD string of a date. -/
def formatDate (d : Date) : String :=
  String.mk (pad4 d.year ++ (pad2 d.month ++ pad2 d.day))

/-- Numeric key of a date; orders dates chronologically for valid fields. -/
def dateKey (d : Date) : Nat :=
  d.year * 10000 + d.month * 100 + d.day

/-- Date fields in range: month 1..12 and day 1..daysInMonth. -/
def ValidDate (d : Date) : Prop :=
  1 ≤ d.month ∧ d.month ≤ 12 ∧ 1 ≤ d.day ∧ d.day ≤ daysInMonth d.year d.month

instance (d : Date) : Decidable (ValidDate d) := by
  unfold ValidDate; exact inferInstance

/-- Model of the Go string comparison s < t: bytewise lexicographic order,
with a strict prefix comparing below.  On character lists of UTF-8 strings
this coincides with the byte order Go uses. -/
def strLtB : List Char → List Char → Bool
  | _, [] => false
  | [], _ :: _ => true
  | a :: as, b :: bs =>
    if a.toNat < b.toNat then true
    else if b.toNat < a.toNat then false
    else strLtB as bs

/-- Go string less-than on whole strings. -/
def strLt (a b : String) : Bool :=
  strLtB a.data b.data

/-- Model of the Go slice tableName[len(tableName)-8:]: the last 8 characters. -/
def suffix8 (s : String) : String :=
  String.mk (s.data.drop (s.data.length - 8))

/-- Model of SQL table_name LIKE pfx concatenated with the percent wildcard:
a starts-with test on the name. -/
def matchesLike (pfx s : String) : Bool :=
  pfx.data.isPrefixOf s.data

/-- DDL statements the tool can execute. -/
inductive Stmt where
  | dropTable (table : String)
  | createTableAs (backup source : String)
deriving DecidableEq

/-- Log lines the tool can emit, one constructor per log.Printf call site. -/
inductive LogEntry where
  | droppedOld (table : String)
  | dropError (table err : String)
  | createdBackup (table backup : String)
  | createError (table err : String)
deriving DecidableEq

/-- Terminal error of a run, tagged with the phase whose catalog enumeration
failed, as performBackup wraps the underlying error per phase. -/
inductive RunError where
  | sweepPhase (msg : String)
  | snapshotPhase (msg : String)
deriving DecidableEq

/-- Database oracle: the catalog contents and the outcome of each query or
DDL execution the tool may attempt. -/
structure Db where
  catalog : List String
  likeQueryError : Option String
  notLikeQueryError : Option String
  execError : Stmt → Option String

/-- Replace the DDL-outcome oracle of a database, keeping the catalog and the
enumeration outcomes. -/
def withExec (db : Db) (e : Stmt → Option String) : Db :=
  ⟨db.catalog, db.likeQueryError, db.notLikeQueryError, e⟩

/-- Output of the retention sweep: returned error, executed DDL, log lines. -/
structure SweepOut where
  error : Option String
  stmts : List Stmt
  logs : List LogEntry

/-- Output of a whole run: returned error, executed DDL, log lines. -/
structure RunOut where
  error : Option RunError
  stmts : List Stmt
  logs : List LogEntry

/-- Threshold string of deleteOldBackups: today minus retentionDays, formatted
YYYYMMDD. -/
def thresholdString (today : Date) (retentionDays : Int) : String :=
  formatDate (addDays today (-retentionDays))

/-- Catalog enumeration of the retention sweep: names LIKE pfx plus wildcard. -/
def tablesLike (pfx : String) (catalog : List String) : List String :=
  catalog.filter (fun t => matchesLike pfx t)

/-- Catalog enumeration of the snapshot pass: names NOT LIKE pfx plus wildcard. -/
def tablesNotLike (pfx : String) (catalog : List String) : List String :=
  catalog.filter (fun t => !matchesLike pfx t)

/-- The tablesToDelete list deleteOldBackups builds while scanning rows: names
matching the pfx whose length is at least 8 and whose last 8 characters
compare below the threshold string. -/
def markedForDeletion (today : Date) (pfx : String) (retentionDays : Int)
    (catalog : List String) : List String :=
  (tablesLike pfx catalog).filter
    (fun t => decide (8 ≤ t.data.length) &&
      strLt (suffix8 t) (thresholdString today retentionDays))

/-- One iteration of the DROP loop of deleteOldBackups: in a real run the DROP
is executed and its failure is logged and absorbed, in a dry run nothing is
executed; the deletion log line is printed unless the DROP failed. -/
def dropStep (db : Db) (realRun : Bool) (t : String) : List Stmt × LogEntry :=
  if realRun then
    match db.execError (Stmt.dropTable t) with
    | some e => ([Stmt.dropTable t], LogEntry.dropError t e)
    | none => ([Stmt.dropTable t], LogEntry.droppedOld t)
  else ([], LogEntry.droppedOld t)

/-- The whole DROP loop of deleteOldBackups over a candidate list. -/
def sweepActions (db : Db) (realRun : Bool) : List String → List Stmt × List LogEntry
  | [] => ([], [])
  | t :: rest =>
    ((dropStep db realRun t).1 ++ (sweepActions db realRun rest).1,
     (dropStep db realRun t).2 :: (sweepActions db realRun rest).2)

/-- Model of deleteOldBackups: enumerate names LIKE pfx plus wildcard (a
failure of this query is returned at once), collect tablesToDelete, then run
the DROP loop; per-table DROP failures are logged and absorbed. -/
def deleteOldBackups (today : Date) (db : Db) (pfx : String) (retentionDays : Int)
    (realRun : Bool) : SweepOut :=
  match db.likeQueryError with
  | some e => ⟨some e, [], []⟩
  | none =>
    ⟨none,
     (sweepActions db realRun (markedForDeletion today pfx retentionDays db.catalog)).1,
     (sweepActions db realRun (markedForDeletion today pfx retentionDays db.catalog)).2⟩

/-- Model of getTablesToBackup: enumerate names NOT LIKE pfx plus wildcard,
or return the query error. -/
def getTablesToBackup (db : Db) (pfx : String) : Except String (List String) :=
  match db.notLikeQueryError with
  | some e => Except.error e
  | none => Except.ok (tablesNotLike pfx db.catalog)

/-- Backup name layout of performBackup: pfx, source name and date joined by
underscores. -/
def mkBackupName (pfx table dateStr : String) : String :=
  pfx ++ "_" ++ table ++ "_" ++ dateStr

/-- Model of createBackupTable: execute CREATE TABLE backup AS SELECT star
FROM original, reporting the outcome the oracle assigns to that statement. -/
def createBackupTable (db : Db) (originalTable backupTable : String) : Option String :=
  db.execError (Stmt.createTableAs backupTable originalTable)

/-- One iteration of the CREATE loop of performBackup: in a real run the
CREATE is executed and its failure is logged and absorbed, in a dry run
nothing is executed; the creation log line is printed unless the CREATE
failed. -/
def createStep (db : Db) (pfx currentDate : String) (realRun : Bool)
    (table : String) : List Stmt × LogEntry :=
  if realRun then
    match createBackupTable db table (mkBackupName pfx table currentDate) with
    | some e =>
      ([Stmt.createTableAs (mkBackupName pfx table currentDate) table],
       LogEntry.createError table e)
    | none =>
      ([Stmt.createTableAs (mkBackupName pfx table currentDate) table],
       LogEntry.createdBackup table (mkBackupName pfx table currentDate))
  else ([], LogEntry.createdBackup table (mkBackupName pfx table currentDate))

/-- The whole CREATE loop of performBackup over the source-table list. -/
def snapActions (db : Db) (pfx currentDate : String) (realRun : Bool) :
    List String → List Stmt × List LogEntry
  | [] => ([], [])
  | t :: rest =>
    ((createStep db pfx currentDate realRun t).1 ++
       (snapActions db pfx currentDate realRun rest).1,
     (createStep db pfx currentDate realRun t).2 ::
       (snapActions db pfx currentDate realRun rest).2)

/-- Model of performBackup: run deleteOldBackups and return its error if any,
then getTablesToBackup and return its error if any, then compute the current
date once and run the CREATE loop; per-table CREATE failures are logged and
absorbed and the run returns no error. -/
def performBackup (today : Date) (db : Db) (pfx : String) (retentionDays : Int)
    (realRun : Bool) : RunOut :=
  match (deleteOldBackups today db pfx retentionDays realRun).error with
  | some e =>
    ⟨some (RunError.sweepPhase e),
     (deleteOldBackups today db pfx retentionDays realRun).stmts,
     (deleteOldBackups today db pfx retentionDays realRun).logs⟩
  | none =>
    match getTablesToBackup db pfx with
    | Except.error e =>
      ⟨some (RunError.snapshotPhase e),
       (deleteOldBackups today db pfx retentionDays realRun).stmts,
       (deleteOldBackups today db pfx retentionDays realRun).logs⟩
    | Except.ok tables =>
      ⟨none,
       (deleteOldBackups today db pfx retentionDays realRun).stmts ++
         (snapActions db pfx (formatDate today) realRun tables).1,
       (deleteOldBackups today db pfx retentionDays realRun).logs ++
         (snapActions db pfx (formatDate today) realRun tables).2⟩

/-- Source names of the DROP statements in an executed-statement list. -/
def attemptedDrops (stmts : List Stmt) : List String :=
  stmts.filterMap (fun s => match s with | Stmt.dropTable t => some t | _ => none)

/-- Backup and source names of the CREATE statements in an executed-statement
list. -/
def attemptedCreates (stmts : List Stmt) : List (String × String) :=
  stmts.filterMap
    (fun s => match s with | Stmt.createTableAs b src => some (b, src) | _ => none)

/-- Table names whose deletion log line appears in a log list. -/
def loggedDrops (logs : List LogEntry) : List String :=
  logs.filterMap (fun l => match l with | LogEntry.droppedOld t => some t | _ => none)

/-- Backup and source names whose creation log line appears in a log list. -/
def loggedCreates (logs : List LogEntry) : List (String × String) :=
  logs.filterMap
    (fun l => match l with | LogEntry.createdBackup t b => some (b, t) | _ => none)

end DBacker
namespace DBacker

/-! Helper lemmas on the Go string order. -/

theorem strLtB_irrefl (l : List Char) : strLtB l l = false := by
  induction l with
  | nil => rfl
  | cons a as ih => simp [strLtB, Nat.lt_irrefl, ih]

theorem strLt_irrefl (s : String) : strLt s s = false :=
  strLtB_irrefl s.data

theorem strLtB_append_same (l t₁ t₂ : List Char) :
    strLtB (l ++ t₁) (l ++ t₂) = strLtB t₁ t₂ := by
  induction l with
  | nil => rfl
  | cons a as ih => simp [strLtB, Nat.lt_irrefl, ih]

theorem strLtB_append_of_lt :
    ∀ {l₁ l₂ : List Char}, l₁.length = l₂.length → strLtB l₁ l₂ = true →
      ∀ t₁ t₂ : List Char, strLtB (l₁ ++ t₁) (l₂ ++ t₂) = true := by
  intro l₁
  induction l₁ with
  | nil =>
    intro l₂ hlen h
    cases l₂ with
    | nil => simp [strLtB] at h
    | cons b bs => simp at hlen
  | cons a as ih =>
    intro l₂ hlen h
    cases l₂ with
    | nil => simp at hlen
    | cons b bs =>
      intro t₁ t₂
      by_cases hab : a.toNat < b.toNat
      · simp [strLtB, hab]
      · by_cases hba : b.toNat < a.toNat
        · simp [strLtB, hab, hba] at h
        · have h2 : strLtB as bs = true := by simpa [strLtB, hab, hba] using h
          have hl : as.length = bs.length := by simpa using hlen
          simpa [strLtB, hab, hba] using ih hl h2 t₁ t₂

theorem digitChar_toNat_fin : ∀ x : Fin 10, (Nat.digitChar x.val).toNat = 48 + x.val := by
  decide

theorem digitChar_toNat {a : Nat} (h : a < 10) : (Nat.digitChar a).toNat = 48 + a :=
  digitChar_toNat_fin ⟨a, h⟩

theorem pad2_lt {m n : Nat} (h : m < n) (hn : n ≤ 99) :
    strLtB (pad2 m) (pad2 n) = true := by
  have e1 := digitChar_toNat (a := m / 10 % 10) (by omega)
  have e2 := digitChar_toNat (a := m % 10) (by omega)
  have e3 := digitChar_toNat (a := n / 10 % 10) (by omega)
  have e4 := digitChar_toNat (a := n % 10) (by omega)
  simp only [pad2, strLtB, e1, e2, e3, e4]
  split
  · rfl
  · split
    · omega
    · split
      · rfl
      · split
        · omega
        · omega

theorem pad4_lt {m n : Nat} (h : m < n) (hn : n ≤ 9999) :
    strLtB (pad4 m) (pad4 n) = true := by
  have e1 := digitChar_toNat (a := m / 1000 % 10) (by omega)
  have e2 := digitChar_toNat (a := m / 100 % 10) (by omega)
  have e3 := digitChar_toNat (a := m / 10 % 10) (by omega)
  have e4 := digitChar_toNat (a := m % 10) (by omega)
  have e5 := digitChar_toNat (a := n / 1000 % 10) (by omega)
  have e6 := digitChar_toNat (a := n / 100 % 10) (by omega)
  have e7 := digitChar_toNat (a := n / 10 % 10) (by omega)
  have e8 := digitChar_toNat (a := n % 10) (by omega)
  simp only [pad4, strLtB, e1, e2, e3, e4, e5, e6, e7, e8]
  split
  · rfl
  · split
    · omega
    · split
      · rfl
      · split
        · omega
        · split
          · rfl
          · split
            · omega
            · split
              · rfl
              · split
                · omega
                · omega

/-! Calendar lemmas. -/

theorem daysInMonth_bounds (y m : Nat) :
    28 ≤ daysInMonth y m ∧ daysInMonth y m ≤ 31 := by
  unfold daysInMonth
  split
  · split <;> omega
  · split <;> omega

theorem nextDay_valid {d : Date} (h : ValidDate d) : ValidDate (nextDay d) := by
  obtain ⟨h1, h2, h3, h4⟩ := h
  have hb := daysInMonth_bounds d.year d.month
  have hb2 := daysInMonth_bounds d.year (d.month + 1)
  have hb3 := daysInMonth_bounds (d.year + 1) 1
  unfold ValidDate nextDay
  split
  · dsimp only
    omega
  · split <;> (dsimp only; omega)

theorem dateKey_lt_nextDay {d : Date} (h : ValidDate d) :
    dateKey d < dateKey (nextDay d) := by
  obtain ⟨h1, h2, h3, h4⟩ := h
  have hb := daysInMonth_bounds d.year d.month
  unfold dateKey nextDay
  split
  · dsimp only
    omega
  · split <;> (dsimp only; omega)

theorem nextDay_iter {d : Date} (h : ValidDate d) (k : Nat) :
    ValidDate (nextDay^[k] d) ∧ dateKey d + k ≤ dateKey (nextDay^[k] d) := by
  induction k with
  | zero => simpa using h
  | succ k ih =>
    rw [Function.iterate_succ_apply']
    have hlt := dateKey_lt_nextDay ih.1
    exact ⟨nextDay_valid ih.1, by omega⟩

theorem formatDate_lt {a b : Date}
    (hyb : b.year ≤ 9999)
    (hma : a.month ≤ 99) (hmb : b.month ≤ 99)
    (hda : a.day ≤ 99) (hdb : b.day ≤ 99)
    (h : dateKey a < dateKey b) :
    strLt (formatDate a) (formatDate b) = true := by
  have tri : a.year < b.year ∨
      (a.year = b.year ∧ (a.month < b.month ∨ (a.month = b.month ∧ a.day < b.day))) := by
    unfold dateKey at h
    omega
  show strLtB (pad4 a.year ++ (pad2 a.month ++ pad2 a.day))
      (pad4 b.year ++ (pad2 b.month ++ pad2 b.day)) = true
  rcases tri with hy | ⟨hy, hm | ⟨hm, hd⟩⟩
  · exact strLtB_append_of_lt (by rfl) (pad4_lt hy hyb) _ _
  · rw [hy, strLtB_append_same]
    exact strLtB_append_of_lt (by rfl) (pad2_lt hm hmb) _ _
  · rw [hy, hm, strLtB_append_same, strLtB_append_same]
    exact pad2_lt hd hdb

end DBacker
namespace DBacker

/-! Characterization of the candidate sets and of the two loops. -/

theorem mem_markedForDeletion {today : Date} {pfx : String} {retentionDays : Int}
    {catalog : List String} {name : String} :
    name ∈ markedForDeletion today pfx retentionDays catalog ↔
      name ∈ catalog ∧ matchesLike pfx name = true ∧ 8 ≤ name.data.length ∧
        strLt (suffix8 name) (thresholdString today retentionDays) = true := by
  simp only [markedForDeletion, tablesLike, List.mem_filter, Bool.and_eq_true,
    decide_eq_true_iff]
  tauto

theorem mem_tablesLike {pfx t : String} {catalog : List String} :
    t ∈ tablesLike pfx catalog ↔ t ∈ catalog ∧ matchesLike pfx t = true := by
  simp [tablesLike, List.mem_filter]

theorem mem_tablesNotLike {pfx t : String} {catalog : List String} :
    t ∈ tablesNotLike pfx catalog ↔ t ∈ catalog ∧ matchesLike pfx t = false := by
  simp [tablesNotLike, List.mem_filter]

theorem sweepActions_fst (db : Db) (r : Bool) (l : List String) :
    (sweepActions db r l).1 = if r then l.map Stmt.dropTable else [] := by
  induction l with
  | nil => cases r <;> simp [sweepActions]
  | cons t rest ih =>
    cases r with
    | false => simpa [sweepActions, dropStep] using ih
    | true =>
      cases h : db.execError (Stmt.dropTable t) <;>
        simp [sweepActions, dropStep, h, ih]

theorem sweepActions_snd (db : Db) (r : Bool) (l : List String) :
    (sweepActions db r l).2 = l.map (fun t => (dropStep db r t).2) := by
  induction l with
  | nil => rfl
  | cons t rest ih => simp [sweepActions, ih]

theorem snapActions_fst (db : Db) (pfx currentDate : String) (r : Bool) (l : List String) :
    (snapActions db pfx currentDate r l).1 =
      if r then
        l.map (fun t => Stmt.createTableAs (mkBackupName pfx t currentDate) t)
      else [] := by
  induction l with
  | nil => cases r <;> simp [snapActions]
  | cons t rest ih =>
    cases r with
    | false => simpa [snapActions, createStep] using ih
    | true =>
      cases h : createBackupTable db t (mkBackupName pfx t currentDate) <;>
        simp [snapActions, createStep, h, ih]

theorem snapActions_snd (db : Db) (pfx currentDate : String) (r : Bool) (l : List String) :
    (snapActions db pfx currentDate r l).2 =
      l.map (fun t => (createStep db pfx currentDate r t).2) := by
  induction l with
  | nil => rfl
  | cons t rest ih => simp [snapActions, ih]

theorem dropStep_snd_dry (db : Db) (t : String) :
    (dropStep db false t).2 = LogEntry.droppedOld t := rfl

theorem createStep_snd_dry (db : Db) (pfx currentDate t : String) :
    (createStep db pfx currentDate false t).2 =
      LogEntry.createdBackup t (mkBackupName pfx t currentDate) := rfl

/-! Extraction lemmas for the statement and log projections. -/

theorem attemptedDrops_append (s₁ s₂ : List Stmt) :
    attemptedDrops (s₁ ++ s₂) = attemptedDrops s₁ ++ attemptedDrops s₂ := by
  simp [attemptedDrops, List.filterMap_append]

theorem attemptedCreates_append (s₁ s₂ : List Stmt) :
    attemptedCreates (s₁ ++ s₂) = attemptedCreates s₁ ++ attemptedCreates s₂ := by
  simp [attemptedCreates, List.filterMap_append]

theorem loggedDrops_append (l₁ l₂ : List LogEntry) :
    loggedDrops (l₁ ++ l₂) = loggedDrops l₁ ++ loggedDrops l₂ := by
  simp [loggedDrops, List.filterMap_append]

theorem loggedCreates_append (l₁ l₂ : List LogEntry) :
    loggedCreates (l₁ ++ l₂) = loggedCreates l₁ ++ loggedCreates l₂ := by
  simp [loggedCreates, List.filterMap_append]

theorem attemptedDrops_map_dropTable (l : List String) :
    attemptedDrops (l.map Stmt.dropTable) = l := by
  induction l with
  | nil => rfl
  | cons t rest ih =>
    simp only [List.map_cons]
    show t :: attemptedDrops (rest.map Stmt.dropTable) = t :: rest
    rw [ih]

theorem attemptedDrops_map_create (l : List String) (f : String → String) :
    attemptedDrops (l.map (fun t => Stmt.createTableAs (f t) t)) = [] := by
  induction l with
  | nil => rfl
  | cons t rest ih =>
    simp only [List.map_cons]
    show attemptedDrops (rest.map (fun t => Stmt.createTableAs (f t) t)) = []
    exact ih

theorem attemptedCreates_map_dropTable (l : List String) :
    attemptedCreates (l.map Stmt.dropTable) = [] := by
  induction l with
  | nil => rfl
  | cons t rest ih =>
    simp only [List.map_cons]
    show attemptedCreates (rest.map Stmt.dropTable) = []
    exact ih

theorem attemptedCreates_map_create (l : List String) (f : String → String) :
    attemptedCreates (l.map (fun t => Stmt.createTableAs (f t) t)) =
      l.map (fun t => (f t, t)) := by
  induction l with
  | nil => rfl
  | cons t rest ih =>
    simp only [List.map_cons]
    show (f t, t) :: attemptedCreates (rest.map (fun t => Stmt.createTableAs (f t) t)) = _
    rw [ih]

theorem loggedDrops_map_droppedOld (l : List String) :
    loggedDrops (l.map LogEntry.droppedOld) = l := by
  induction l with
  | nil => rfl
  | cons t rest ih =>
    simp only [List.map_cons]
    show t :: loggedDrops (rest.map LogEntry.droppedOld) = t :: rest
    rw [ih]

theorem loggedDrops_map_created (l : List String) (f : String → String) :
    loggedDrops (l.map (fun t => LogEntry.createdBackup t (f t))) = [] := by
  induction l with
  | nil => rfl
  | cons t rest ih =>
    simp only [List.map_cons]
    show loggedDrops (rest.map (fun t => LogEntry.createdBackup t (f t))) = []
    exact ih

theorem loggedCreates_map_created (l : List String) (f : String → String) :
    loggedCreates (l.map (fun t => LogEntry.createdBackup t (f t))) =
      l.map (fun t => (f t, t)) := by
  induction l with
  | nil => rfl
  | cons t rest ih =>
    simp only [List.map_cons]
    show (f t, t) :: loggedCreates (rest.map (fun t => LogEntry.createdBackup t (f t))) = _
    rw [ih]

theorem loggedCreates_map_droppedOld (l : List String) :
    loggedCreates (l.map LogEntry.droppedOld) = [] := by
  induction l with
  | nil => rfl
  | cons t rest ih =>
    simp only [List.map_cons]
    show loggedCreates (rest.map LogEntry.droppedOld) = []
    exact ih

/-! Shape of deleteOldBackups and performBackup, by cases on the oracle. -/

theorem deleteOldBackups_error (today : Date) (db : Db) (pfx : String)
    (retentionDays : Int) (r : Bool) :
    (deleteOldBackups today db pfx retentionDays r).error = db.likeQueryError := by
  cases h : db.likeQueryError <;> simp [deleteOldBackups, h]

theorem deleteOldBackups_stmts (today : Date) (db : Db) (pfx : String)
    (retentionDays : Int) (r : Bool) :
    (deleteOldBackups today db pfx retentionDays r).stmts =
      if db.likeQueryError = none then
        (if r then (markedForDeletion today pfx retentionDays db.catalog).map Stmt.dropTable
         else [])
      else [] := by
  cases h : db.likeQueryError <;> simp [deleteOldBackups, h, sweepActions_fst]

theorem deleteOldBackups_logs (today : Date) (db : Db) (pfx : String)
    (retentionDays : Int) (r : Bool) :
    (deleteOldBackups today db pfx retentionDays r).logs =
      if db.likeQueryError = none then
        (markedForDeletion today pfx retentionDays db.catalog).map
          (fun t => (dropStep db r t).2)
      else [] := by
  cases h : db.likeQueryError <;> simp [deleteOldBackups, h, sweepActions_snd]

theorem performBackup_error (today : Date) (db : Db) (pfx : String)
    (retentionDays : Int) (r : Bool) :
    (performBackup today db pfx retentionDays r).error =
      match db.likeQueryError with
      | some e => some (RunError.sweepPhase e)
      | none =>
        match db.notLikeQueryError with
        | some e => some (RunError.snapshotPhase e)
        | none => none := by
  cases h1 : db.likeQueryError with
  | some e => simp [performBackup, deleteOldBackups_error, h1]
  | none =>
    cases h2 : db.notLikeQueryError <;>
      simp [performBackup, deleteOldBackups_error, h1, getTablesToBackup, h2]

theorem performBackup_stmts (today : Date) (db : Db) (pfx : String)
    (retentionDays : Int) (r : Bool) :
    (performBackup today db pfx retentionDays r).stmts =
      if db.likeQueryError = none then
        (if r then (markedForDeletion today pfx retentionDays db.catalog).map Stmt.dropTable
         else []) ++
        (if db.notLikeQueryError = none then
          (if r then
            (tablesNotLike pfx db.catalog).map
              (fun t => Stmt.createTableAs (mkBackupName pfx t (formatDate today)) t)
           else [])
         else [])
      else [] := by
  cases h1 : db.likeQueryError with
  | some e => simp [performBackup, deleteOldBackups_error, deleteOldBackups_stmts, h1]
  | none =>
    cases h2 : db.notLikeQueryError <;>
      simp [performBackup, deleteOldBackups_error, deleteOldBackups_stmts, h1,
        getTablesToBackup, h2, snapActions_fst]

theorem performBackup_logs (today : Date) (db : Db) (pfx : String)
    (retentionDays : Int) (r : Bool) :
    (performBackup today db pfx retentionDays r).logs =
      if db.likeQueryError = none then
        (markedForDeletion today pfx retentionDays db.catalog).map
          (fun t => (dropStep db r t).2) ++
        (if db.notLikeQueryError = none then
          (tablesNotLike pfx db.catalog).map
            (fun t => (createStep db pfx (formatDate today) r t).2)
         else [])
      else [] := by
  cases h1 : db.likeQueryError with
  | some e => simp [performBackup, deleteOldBackups_error, deleteOldBackups_logs, h1]
  | none =>
    cases h2 : db.notLikeQueryError <;>
      simp [performBackup, deleteOldBackups_error, deleteOldBackups_logs, h1,
        getTablesToBackup, h2, snapActions_snd]

end DBacker
namespace DBacker

/-! Concrete database fixtures used by witnesses. -/

/-- Fixture: a healthy catalog with one source table and one dated backup. -/
def dbPlain : Db :=
  ⟨["users", "autobackup_users_20230101"], none, none, fun _ => none⟩

/-- Fixture: catalog with an old backup whose DROP fails. -/
def dbDropFails : Db :=
  ⟨["autobackup_foo_20230101", "users"], none, none,
   fun s => if s = Stmt.dropTable "autobackup_foo_20230101" then some "boom" else none⟩

/-- Fixture: the sweep catalog enumeration fails. -/
def dbLikeFails : Db :=
  ⟨["users"], some "enum failed", none, fun _ => none⟩

/-- C1: a catalog table is marked for deletion by the retention sweep exactly
when it matches the pfx filter, has length at least 8, and its last 8
characters compare below the threshold string under plain string comparison,
with no calendar validation of that window; concretely, with today 2023-05-15
and retention 14 the threshold is 20230501 and autobackup_foo_20230101 is
marked because its suffix sorts below the threshold. -/
theorem retention_marking_rule :
    (∀ (today : Date) (pfx : String) (retentionDays : Int) (catalog : List String)
        (name : String),
      name ∈ markedForDeletion today pfx retentionDays catalog ↔
        name ∈ catalog ∧ matchesLike pfx name = true ∧ 8 ≤ name.data.length ∧
          strLt (suffix8 name) (thresholdString today retentionDays) = true) ∧
    thresholdString ⟨2023, 5, 15⟩ 14 = "20230501" ∧
    strLt "20230101" "20230501" = true ∧
    "autobackup_foo_20230101" ∈
      markedForDeletion ⟨2023, 5, 15⟩ "autobackup" 14 ["autobackup_foo_20230101"] :=
  ⟨fun _ _ _ _ _ => mem_markedForDeletion, by decide, by decide, by decide⟩

/-- Witness for C1 at a concrete input: a malformed suffix that sorts below
the threshold is marked even though it is not a calendar date. -/
theorem retention_marking_rule_witness :
    "autobackup_bar_0000zzzz" ∈
      markedForDeletion ⟨2023, 5, 15⟩ "autobackup" 14 ["autobackup_bar_0000zzzz"] :=
  (retention_marking_rule.1 ⟨2023, 5, 15⟩ "autobackup" 14 ["autobackup_bar_0000zzzz"]
      "autobackup_bar_0000zzzz").mpr ⟨by decide, by decide, by decide, by decide⟩

/-- C2: a dry run executes no DDL statement at all, while logging exactly the
deletion candidates and the backup creations that a real run on the same
database state would attempt. -/
theorem dry_run_transparency (today : Date) (db : Db) (pfx : String)
    (retentionDays : Int) :
    (performBackup today db pfx retentionDays false).stmts = [] ∧
    loggedDrops (performBackup today db pfx retentionDays false).logs
      = attemptedDrops (performBackup today db pfx retentionDays true).stmts ∧
    loggedCreates (performBackup today db pfx retentionDays false).logs
      = attemptedCreates (performBackup today db pfx retentionDays true).stmts := by
  simp only [performBackup_stmts, performBackup_logs]
  cases h1 : db.likeQueryError <;> cases h2 : db.notLikeQueryError <;>
    simp [h1, h2, dropStep_snd_dry, createStep_snd_dry,
      attemptedDrops_append, attemptedCreates_append, loggedDrops_append,
      loggedCreates_append, attemptedDrops_map_dropTable, attemptedDrops_map_create,
      attemptedCreates_map_dropTable, attemptedCreates_map_create,
      loggedDrops_map_droppedOld, loggedDrops_map_created,
      loggedCreates_map_created, loggedCreates_map_droppedOld]
  all_goals exact ⟨rfl, rfl⟩

end DBacker
namespace DBacker

/-- C3: per-table DROP or CREATE failures are logged and absorbed — they
change neither the returned error nor the set of statements the run attempts —
while a catalog enumeration failure in either phase is returned as the
terminal result of the run; the run returns no error exactly when both
enumerations succeed. -/
theorem error_propagation_policy (today : Date) (db : Db) (pfx : String)
    (retentionDays : Int) (realRun : Bool) :
    ((performBackup today db pfx retentionDays realRun).error = none ↔
      db.likeQueryError = none ∧ db.notLikeQueryError = none) ∧
    (∀ e₁ e₂ : Stmt → Option String,
      (performBackup today (withExec db e₁) pfx retentionDays realRun).error
        = (performBackup today (withExec db e₂) pfx retentionDays realRun).error ∧
      (performBackup today (withExec db e₁) pfx retentionDays realRun).stmts
        = (performBackup today (withExec db e₂) pfx retentionDays realRun).stmts) ∧
    (∀ msg, db.likeQueryError = some msg →
      (performBackup today db pfx retentionDays realRun).error
        = some (RunError.sweepPhase msg)) ∧
    (∀ msg, db.likeQueryError = none → db.notLikeQueryError = some msg →
      (performBackup today db pfx retentionDays realRun).error
        = some (RunError.snapshotPhase msg)) ∧
    (∀ t msg, db.likeQueryError = none →
      t ∈ markedForDeletion today pfx retentionDays db.catalog →
      db.execError (Stmt.dropTable t) = some msg →
      LogEntry.dropError t msg ∈ (performBackup today db pfx retentionDays true).logs) ∧
    (∀ t msg, db.likeQueryError = none → db.notLikeQueryError = none →
      t ∈ tablesNotLike pfx db.catalog →
      db.execError (Stmt.createTableAs (mkBackupName pfx t (formatDate today)) t)
        = some msg →
      LogEntry.createError t msg ∈ (performBackup today db pfx retentionDays true).logs) := by
  refine ⟨?_, ?_, ?_, ?_, ?_, ?_⟩
  · rw [performBackup_error]
    cases h1 : db.likeQueryError <;> cases h2 : db.notLikeQueryError <;> simp [h1, h2]
  · intro e₁ e₂
    constructor
    · simp only [performBackup_error, withExec]
    · simp only [performBackup_stmts, withExec]
  · intro msg h
    rw [performBackup_error, h]
  · intro msg h1 h2
    rw [performBackup_error, h1, h2]
  · intro t msg h1 ht hexec
    rw [performBackup_logs]
    simp [h1]
    exact Or.inl ⟨t, ht, by simp [dropStep, hexec]⟩
  · intro t msg h1 h2 ht hexec
    rw [performBackup_logs]
    simp [h1, h2]
    exact Or.inr ⟨t, ht, by simp [createStep, createBackupTable, hexec]⟩

/-- Witness for C3 at a concrete input: the failed DROP of the old backup is
logged with its table name and cause. -/
theorem error_propagation_policy_witness :
    LogEntry.dropError "autobackup_foo_20230101" "boom" ∈
      (performBackup ⟨2023, 5, 15⟩ dbDropFails "autobackup" 14 true).logs :=
  (error_propagation_policy ⟨2023, 5, 15⟩ dbDropFails "autobackup" 14 true).2.2.2.2.1
    "autobackup_foo_20230101" "boom" rfl (by decide) (by decide)

/-- C4: a catalog table is in the retention sweep candidate enumeration
exactly when it is not in the snapshot pass source enumeration, so no table
is in both and no backup table is ever a snapshot source. -/
theorem passes_mutually_exclusive (pfx t : String) (catalog : List String)
    (h : t ∈ catalog) :
    t ∈ tablesLike pfx catalog ↔ t ∉ tablesNotLike pfx catalog := by
  simp [mem_tablesLike, mem_tablesNotLike, h]

/-- Witness for C4 at a concrete input. -/
theorem passes_mutually_exclusive_witness :
    "users" ∈ ["users", "autobackup_users_20230101"] ∧
    ("users" ∈ tablesLike "autobackup" ["users", "autobackup_users_20230101"] ↔
      "users" ∉ tablesNotLike "autobackup" ["users", "autobackup_users_20230101"]) :=
  ⟨by decide,
   passes_mutually_exclusive "autobackup" "users" ["users", "autobackup_users_20230101"]
     (by decide)⟩

/-- C5: in a run whose enumerations succeed, the snapshot pass constructs for
each enumerated source table exactly the backup name pfx, source name and
date joined by underscores, with one shared date string for the whole pass:
the real-run CREATE statements and the dry-run creation log lines both list
precisely these pairs. -/
theorem backup_naming_consistency (today : Date) (db : Db) (pfx : String)
    (retentionDays : Int)
    (h1 : db.likeQueryError = none) (h2 : db.notLikeQueryError = none) :
    attemptedCreates (performBackup today db pfx retentionDays true).stmts
      = (tablesNotLike pfx db.catalog).map
          (fun t => (mkBackupName pfx t (formatDate today), t)) ∧
    loggedCreates (performBackup today db pfx retentionDays false).logs
      = (tablesNotLike pfx db.catalog).map
          (fun t => (mkBackupName pfx t (formatDate today), t)) := by
  simp only [performBackup_stmts, performBackup_logs]
  simp [h1, h2, dropStep_snd_dry, createStep_snd_dry,
    attemptedCreates_append, attemptedCreates_map_dropTable, attemptedCreates_map_create,
    loggedCreates_append, loggedCreates_map_droppedOld, loggedCreates_map_created]

/-- Witness for C5 at a concrete input. -/
theorem backup_naming_consistency_witness :
    attemptedCreates (performBackup ⟨2023, 5, 15⟩ dbPlain "autobackup" 14 true).stmts
      = [("autobackup_users_20230515", "users")] := by
  rw [(backup_naming_consistency ⟨2023, 5, 15⟩ dbPlain "autobackup" 14 rfl rfl).1]
  decide

/-- C7: every run executes the whole retention sweep before any snapshot
statement — the statement list is the sweep DROP list followed by CREATE
statements only — and when the sweep catalog enumeration fails the run stops
with that error: nothing is executed and nothing is logged. -/
theorem phase_ordering (today : Date) (db : Db) (pfx : String) (retentionDays : Int)
    (realRun : Bool) :
    (∃ creates : List Stmt,
      (performBackup today db pfx retentionDays realRun).stmts
        = (deleteOldBackups today db pfx retentionDays realRun).stmts ++ creates ∧
      (∀ s ∈ (deleteOldBackups today db pfx retentionDays realRun).stmts,
        ∃ t, s = Stmt.dropTable t) ∧
      (∀ s ∈ creates, ∃ b src, s = Stmt.createTableAs b src)) ∧
    (∀ msg, db.likeQueryError = some msg →
      (performBackup today db pfx retentionDays realRun).error
          = some (RunError.sweepPhase msg) ∧
      (performBackup today db pfx retentionDays realRun).stmts = [] ∧
      (performBackup today db pfx retentionDays realRun).logs = []) := by
  constructor
  · refine ⟨if db.likeQueryError = none then
        (if db.notLikeQueryError = none then
          (if realRun then
            (tablesNotLike pfx db.catalog).map
              (fun t => Stmt.createTableAs (mkBackupName pfx t (formatDate today)) t)
           else [])
         else [])
      else [], ?_, ?_, ?_⟩
    · rw [performBackup_stmts, deleteOldBackups_stmts]
      cases h1 : db.likeQueryError <;> cases h2 : db.notLikeQueryError <;> simp [h1, h2]
    · rw [deleteOldBackups_stmts]
      intro s hs
      cases h1 : db.likeQueryError <;> rw [h1] at hs <;> simp at hs
      cases hr : realRun <;> rw [hr] at hs <;> simp at hs
      obtain ⟨t, _, rfl⟩ := hs
      exact ⟨t, rfl⟩
    · intro s hs
      cases h1 : db.likeQueryError <;> rw [h1] at hs <;> simp at hs
      cases h2 : db.notLikeQueryError <;> rw [h2] at hs <;> simp at hs
      cases hr : realRun <;> rw [hr] at hs <;> simp at hs
      obtain ⟨t, _, rfl⟩ := hs
      exact ⟨mkBackupName pfx t (formatDate today), t, rfl⟩
  · intro msg h
    refine ⟨?_, ?_, ?_⟩
    · rw [performBackup_error, h]
    · rw [performBackup_stmts, h]
      simp
    · rw [performBackup_logs, h]
      simp

/-- Witness for C7 at a concrete input: a failed sweep enumeration is the
terminal result and nothing is executed. -/
theorem phase_ordering_witness :
    (performBackup ⟨2023, 5, 15⟩ dbLikeFails "autobackup" 14 true).error
      = some (RunError.sweepPhase "enum failed") ∧
    (performBackup ⟨2023, 5, 15⟩ dbLikeFails "autobackup" 14 true).stmts = [] :=
  ⟨((phase_ordering ⟨2023, 5, 15⟩ dbLikeFails "autobackup" 14 true).2 "enum failed" rfl).1,
   ((phase_ordering ⟨2023, 5, 15⟩ dbLikeFails "autobackup" 14 true).2 "enum failed" rfl).2.1⟩

end DBacker
namespace DBacker

/-- Counterexample for C6 as stated: a table of length 8 that matches the
configured pfx and is shorter than the pfx length plus 8 is nevertheless
marked for deletion, because the 8-character window overlapping the pfx still
sorts below the threshold string. -/
theorem short_name_extension_counterexample :
    matchesLike "0" "00000000" = true ∧
    "00000000".data.length < "0".data.length + 8 ∧
    "00000000" ∈ markedForDeletion ⟨2023, 5, 15⟩ "0" 14 ["00000000"] := by
  decide

/-- C6 amended: a table whose name is shorter than 8 characters is never
marked for deletion, regardless of matching the pfx and of its age; the
extension to all names shorter than the pfx length plus 8 does not hold. -/
theorem short_name_safety (today : Date) (pfx : String) (retentionDays : Int)
    (catalog : List String) (name : String) (hshort : name.data.length < 8) :
    name ∉ markedForDeletion today pfx retentionDays catalog := by
  rw [mem_markedForDeletion]
  rintro ⟨-, -, hlen, -⟩
  omega

/-- Witness for the amended C6 at a concrete input. -/
theorem short_name_safety_witness :
    "autobak".data.length < 8 ∧
    "autobak" ∉ markedForDeletion ⟨2023, 5, 15⟩ "auto" 14 ["autobak"] :=
  ⟨by decide,
   short_name_safety ⟨2023, 5, 15⟩ "auto" 14 ["autobak"] "autobak" (by decide)⟩

/-- C8: the retention boundary is strict — a table whose 8-character suffix
equals the threshold string exactly is not marked for deletion; only strictly
smaller suffixes are marked. -/
theorem retention_boundary_strict (today : Date) (pfx : String) (retentionDays : Int)
    (catalog : List String) (name : String)
    (hsuf : suffix8 name = thresholdString today retentionDays) :
    name ∉ markedForDeletion today pfx retentionDays catalog := by
  rw [mem_markedForDeletion]
  rintro ⟨-, -, -, hlt⟩
  rw [hsuf, strLt_irrefl] at hlt
  exact Bool.false_ne_true hlt

/-- Witness for C8 at a concrete input: a backup exactly 14 days old with
retention 14 survives. -/
theorem retention_boundary_strict_witness :
    suffix8 "autobackup_foo_20230501" = thresholdString ⟨2023, 5, 15⟩ 14 ∧
    "autobackup_foo_20230501" ∉
      markedForDeletion ⟨2023, 5, 15⟩ "autobackup" 14 ["autobackup_foo_20230501"] :=
  ⟨by decide,
   retention_boundary_strict ⟨2023, 5, 15⟩ "autobackup" 14
     ["autobackup_foo_20230501"] "autobackup_foo_20230501" (by decide)⟩

/-- C9: with a negative retention the threshold lies in the future, so any
pfx-matching table whose suffix is the current date — including backups
created earlier the same day — is marked for deletion; negative retention is not rejected or
clamped. -/
theorem negative_retention_marks_today (today : Date) (retentionDays : Int)
    (pfx name : String) (catalog : List String)
    (hvalid : ValidDate today)
    (hy2 : (addDays today (-retentionDays)).year ≤ 9999)
    (hneg : retentionDays < 0)
    (hcat : name ∈ catalog) (hpfx : matchesLike pfx name = true)
    (hlen : 8 ≤ name.data.length)
    (hsuf : suffix8 name = formatDate today) :
    name ∈ markedForDeletion today pfx retentionDays catalog := by
  rw [mem_markedForDeletion]
  refine ⟨hcat, hpfx, hlen, ?_⟩
  rw [hsuf]
  unfold thresholdString
  have h0 : (0:Int) ≤ -retentionDays := by omega
  unfold addDays at hy2 ⊢
  rw [if_pos h0] at hy2 ⊢
  have hk1 : 1 ≤ (-retentionDays).toNat := by omega
  obtain ⟨hval2, hkey⟩ := nextDay_iter hvalid (-retentionDays).toNat
  have hb := daysInMonth_bounds (nextDay^[(-retentionDays).toNat] today).year
      (nextDay^[(-retentionDays).toNat] today).month
  have hb0 := daysInMonth_bounds today.year today.month
  obtain ⟨m1, m2, d1, d2⟩ := hvalid
  obtain ⟨m1b, m2b, d1b, d2b⟩ := hval2
  exact formatDate_lt hy2 (by omega) (by omega) (by omega) (by omega) (by omega)

/-- Witness for C9 at a concrete input: retention -1 marks a backup created
today. -/
theorem negative_retention_marks_today_witness :
    "autobackup_users_20230515" ∈
      markedForDeletion ⟨2023, 5, 15⟩ "autobackup" (-1) ["autobackup_users_20230515"] :=
  negative_retention_marks_today ⟨2023, 5, 15⟩ (-1) "autobackup"
    "autobackup_users_20230515" ["autobackup_users_20230515"]
    (by decide) (by decide) (by decide) (by decide) (by decide) (by decide) (by decide)

/-- C10: the retention sweep fixes its complete candidate list from the
catalog enumeration before issuing any DROP: whatever outcome the oracle
assigns to individual DROP statements, the DROPs the sweep attempts are
exactly the marked candidates, in order. -/
theorem two_phase_sweep (today : Date) (db : Db) (pfx : String) (retentionDays : Int)
    (hq : db.likeQueryError = none) :
    ∀ e : Stmt → Option String,
      attemptedDrops (deleteOldBackups today (withExec db e) pfx retentionDays true).stmts
        = markedForDeletion today pfx retentionDays db.catalog := by
  intro e
  rw [deleteOldBackups_stmts]
  simp [withExec, hq, attemptedDrops_map_dropTable]

/-- Witness for C10 at a concrete input: even when every DROP fails, the
attempted DROP list equals the marked candidate list. -/
theorem two_phase_sweep_witness :
    attemptedDrops (deleteOldBackups ⟨2023, 5, 15⟩
        (withExec dbDropFails (fun _ => some "always fails")) "autobackup" 14 true).stmts
      = markedForDeletion ⟨2023, 5, 15⟩ "autobackup" 14 dbDropFails.catalog :=
  two_phase_sweep ⟨2023, 5, 15⟩ dbDropFails "autobackup" 14 rfl
    (fun _ => some "always fails")

end DBacker
